import Mathlib

/-
Verification of the search-space narrowing engine of the seldnet_degree
repository against its natural-language specification.

The development shallowly embeds the relevant Python code:
  - src/writer_manager.py   (Writer: init, dump, load, get_index)
  - src/search.py           (round controller: resume, filling loop, stop check)
  - src/accdoa_search.py    (round controller variant, search_space_filter)
  - src/nas_seldnet.py      (postprocess_fn canonicalization)
  - src/config_manager.py   (find_duplicate_config deduplication)
Pure fragments become Lean functions; file-system effects become explicit
state (directory listings as lists of file names, file contents as strings);
Python exceptions become Except.
-/

/-- Whether pre is a prefix of s, on the character lists of the two
strings (the meaning of a trailing-star glob pattern and of Python's
str.startswith). -/
def strHasPrefix (pre s : String) : Bool := pre.data.isPrefixOf s.data

/-- Python's str.split(sep) on character lists: split at every separator,
keeping empty pieces, never returning an empty piece list. -/
def splitChars (sep : Char) : List Char → List (List Char)
  | [] => [[]]
  | c :: rest =>
    let r := splitChars sep rest
    if c = sep then [] :: r
    else
      match r with
      | [] => [[c]]
      | g :: gs => (c :: g) :: gs

/-- Python's in operator on strings: needle occurs as a contiguous
substring of the haystack. -/
def hasSubstr (needle : List Char) : List Char → Bool
  | [] => needle.isEmpty
  | c :: rest => needle.isPrefixOf (c :: rest) || hasSubstr needle rest

namespace Writer

/-- Embedding of the retry loop of Writer.load (src/writer_manager.py,
lines 45-57).  The argument reads gives the outcome of the i-th read
attempt of the file (ok on a clean decode, error on a JSONDecodeError;
exceptions other than decode failures are outside this model).  The Python
loop keeps a failure counter: each JSONDecodeError sleeps one second and
increments count, and a finally clause performs one last unguarded read
as soon as count reaches 10.  The fuel argument is the number of guarded
failures still allowed before that final unguarded read. -/
def loadAux {α : Type} (reads : Nat → Except String α) : Nat → Nat → Except String α
  | i, 0 => reads i
  | i, fuel + 1 =>
    match reads i with
    | Except.ok v => Except.ok v
    | Except.error _ => loadAux reads (i + 1) fuel

/-- Writer.load: first read is attempt 0 with a budget of 10 guarded
retries; after ten decode failures the finally clause rereads once more
(attempt 10) and returns or raises whatever that read produces. -/
def load {α : Type} (reads : Nat → Except String α) : Except String α :=
  loadAux reads 0 10

/-- Embedding of Writer.get_index (src/writer_manager.py, lines 60-67):
glob the result directory for files named result_*, count them, and
return count - 1 when the count is nonzero, otherwise 0.  The sorted()
call of the source only orders the glob hits and cannot change the count,
so it is not modelled. -/
def get_index (dirFiles : List String) : Nat :=
  let previous_results := dirFiles.filter (fun f => strHasPrefix "result_" f)
  let num_result := previous_results.length
  if num_result ≠ 0 then num_result - 1 else 0

/-- State produced by Writer.__init__: the round index it computed and the
files left in the result directory afterwards. -/
structure InitResult where
  index : Nat
  filesAfter : List String
  deriving DecidableEq, Repr

/-- The shell command rm -rf dir/* of Writer.__init__ expands the glob *,
which matches every non-hidden entry of the directory: files whose name
starts with a dot survive, everything else is deleted. -/
def rmStar (dirFiles : List String) : List String :=
  dirFiles.filter (fun f => strHasPrefix "." f)

/-- Embedding of Writer.__init__ (src/writer_manager.py, lines 10-17):
the round index is computed by get_index from the directory as it is
found on disk, and only afterwards, when train_config.new is set, is the
directory content deleted with rm -rf dir/*. -/
def init (dirFiles : List String) (isNew : Bool) : InitResult :=
  let index := get_index dirFiles
  { index := index, filesAfter := if isNew then rmStar dirFiles else dirFiles }

end Writer

/-! Model of the documents handed to Writer.dump and of the streaming JSON
serialization that json.dump performs.  Python sets pass the isinstance
gate at the top of dump but are not JSON serializable, so the encoder
raises a TypeError in the middle of writing. -/

mutual

/-- A Python value as passed to json.dump: numbers, strings, booleans,
lists, dicts, and the non-serializable set. -/
inductive PyVal : Type where
  | int (n : Int)
  | str (s : String)
  | boolean (b : Bool)
  | list (xs : PyList)
  | dict (kvs : PyDict)
  | pyset (xs : PyList)

/-- A list of Python values. -/
inductive PyList : Type where
  | nil
  | cons (x : PyVal) (xs : PyList)

/-- A Python dict, as an ordered association list. -/
inductive PyDict : Type where
  | nil
  | cons (k : String) (v : PyVal) (rest : PyDict)

end

/-- JSON rendering of a string literal. -/
def quoteStr (s : String) : String := "\"" ++ s ++ "\""

mutual

/-- What json.dump streams into the already-truncated file: the text
written so far, and whether serialization completed.  On hitting a set the
encoder raises TypeError, so emission stops with only the prefix written. -/
def emitted : PyVal → String × Bool
  | PyVal.int n => (toString n, true)
  | PyVal.str s => (quoteStr s, true)
  | PyVal.boolean b => ((if b then "true" else "false"), true)
  | PyVal.list xs =>
    let p := emittedList xs
    ("[" ++ p.1 ++ (if p.2 then "]" else ""), p.2)
  | PyVal.dict kvs =>
    let p := emittedDict kvs
    ("\x7b" ++ p.1 ++ (if p.2 then "\x7d" else ""), p.2)
  | PyVal.pyset _ => ("", false)

/-- Streamed emission of the elements of a JSON array. -/
def emittedList : PyList → String × Bool
  | PyList.nil => ("", true)
  | PyList.cons x PyList.nil => emitted x
  | PyList.cons x xs =>
    let p := emitted x
    if p.2 then
      let q := emittedList xs
      (p.1 ++ ", " ++ q.1, q.2)
    else (p.1, false)

/-- Streamed emission of the members of a JSON object. -/
def emittedDict : PyDict → String × Bool
  | PyDict.nil => ("", true)
  | PyDict.cons k v PyDict.nil =>
    let p := emitted v
    (quoteStr k ++ ": " ++ p.1, p.2)
  | PyDict.cons k v rest =>
    let p := emitted v
    if p.2 then
      let q := emittedDict rest
      (quoteStr k ++ ": " ++ p.1 ++ ", " ++ q.1, q.2)
    else (quoteStr k ++ ": " ++ p.1, false)

end

mutual

/-- Whether a value contains no set, i.e. json.dump can serialize it. -/
def setFree : PyVal → Bool
  | PyVal.int _ => true
  | PyVal.str _ => true
  | PyVal.boolean _ => true
  | PyVal.list xs => setFreeList xs
  | PyVal.dict kvs => setFreeDict kvs
  | PyVal.pyset _ => false

/-- setFree on list elements. -/
def setFreeList : PyList → Bool
  | PyList.nil => true
  | PyList.cons x xs => setFree x && setFreeList xs

/-- setFree on dict values. -/
def setFreeDict : PyDict → Bool
  | PyDict.nil => true
  | PyDict.cons _ v rest => setFree v && setFreeDict rest

end

mutual

/-- The complete serialization of a serializable value (the reference
against which the streamed emission is compared). -/
def serTotal : PyVal → String
  | PyVal.int n => toString n
  | PyVal.str s => quoteStr s
  | PyVal.boolean b => if b then "true" else "false"
  | PyVal.list xs => "[" ++ serTotalList xs ++ "]"
  | PyVal.dict kvs => "\x7b" ++ serTotalDict kvs ++ "\x7d"
  | PyVal.pyset _ => ""

/-- serTotal on array elements. -/
def serTotalList : PyList → String
  | PyList.nil => ""
  | PyList.cons x PyList.nil => serTotal x
  | PyList.cons x xs => serTotal x ++ ", " ++ serTotalList xs

/-- serTotal on object members. -/
def serTotalDict : PyDict → String
  | PyDict.nil => ""
  | PyDict.cons k v PyDict.nil => quoteStr k ++ ": " ++ serTotal v
  | PyDict.cons k v rest => quoteStr k ++ ": " ++ serTotal v ++ ", " ++ serTotalDict rest

end

namespace Writer

/-- The isinstance gate at the top of Writer.dump (src/writer_manager.py
lines 36-40): list, tuple, dict and set pass; anything else is fed to
vars(), which raises for numbers, strings and booleans, so dump re-raises
TypeError before the file is ever opened.  (Objects that do have a
__dict__ are outside this model.) -/
def isinstanceGate : PyVal → Bool
  | PyVal.list _ => true
  | PyVal.dict _ => true
  | PyVal.pyset _ => true
  | PyVal.int _ => false
  | PyVal.str _ => false
  | PyVal.boolean _ => false

/-- Embedding of Writer.dump (src/writer_manager.py, lines 35-43) acting
on the single file at the target path.  Content failing the isinstance
gate raises TypeError at lines 36-40, before the file is opened, leaving
the previous document unchanged.  Otherwise opening the file in mode w
truncates it before any byte is produced, discarding the previous content
(the first argument), and json.dump then streams the serialization into
the file.  The result is the new file content paired with whether dump
returned normally (false models the TypeError raised either at the gate
or, for a set nested in the content, after the prefix was already
written). -/
def dump (prevFile : Option String) (content : PyVal) : Option String × Bool :=
  if isinstanceGate content then
    let p := emitted content
    (some p.1, p.2)
  else (prevFile, false)

end Writer

/-! Round controller (src/search.py main, lines 243-303, and the
src/accdoa_search.py variant).  Trial records are kept abstract: the
controller only ever appends them and counts them. -/

/-- The Python expression range(a, b). -/
def pyRange (a b : Nat) : List Nat := List.range' a (b - a)

/-- Resume step of a round (src/search.py lines 247-251): results starts
empty and is replaced by the loaded document when the round's result file
already exists on disk. -/
def resumeResults {α : Type} (onDisk : Option (List α)) : List α :=
  onDisk.getD []

/-- Filling loop of a round (src/search.py lines 270-287): with
current_number = len(results), iterate number over
range(current_number, n_samples), train the sampled config and append the
record, persisting after every trial.  sample number is the trial record
produced at loop counter number. -/
def fillingRound {α : Type} (results : List α) (nSamples : Nat) (sample : Nat → α) :
    List α :=
  (pyRange results.length nSamples).foldl (fun acc number => acc ++ [sample number]) results

/-- One row of the analyzer table, keeping only the two components the
round controller inspects: x[0][0], the aggregate statistic the threshold
is compared against, and x[-2], the block-type tag used to skip
identity_block rows.  Statistics are modelled as rationals. -/
structure TableRow where
  stat : ℚ
  kind : String
  deriving DecidableEq, Repr

/-- The removable-row filter of src/search.py lines 293 and 301:
keep rows with x[0][0] <= threshold whose x[-2] is not identity_block. -/
def tableFilter (threshold : ℚ) (table : List TableRow) : List TableRow :=
  table.filter (fun x => decide (x.stat ≤ threshold) && decide (x.kind ≠ "identity_block"))

/-- What the controller does after the analysis of a round. -/
inductive RoundOutcome : Type where
  | complete
  | narrowing
  deriving DecidableEq, Repr

/-- One iteration of the outer while True loop of src/search.py main
(lines 243-296), up to the completion test: resume the round's recorded
trials, fill the round up to n_samples trials, build the analyzer table
from the results, filter it, and declare the search complete exactly when
the filtered table is empty (line 294), otherwise fall through to the
narrowing loop.  analyzerF abstracts the analyzer function of the absent
model_analyze module; the controller logic under test is independent of
it. -/
def runRound {α : Type} (onDisk : Option (List α)) (nSamples : Nat) (sample : Nat → α)
    (analyzerF : List α → List TableRow) (threshold : ℚ) :
    List α × RoundOutcome :=
  let results := fillingRound (resumeResults onDisk) nSamples sample
  let table := analyzerF results
  let tmp := tableFilter threshold table
  (results, if tmp.length = 0 then RoundOutcome.complete else RoundOutcome.narrowing)

/-! Search-space narrowing (round-over-round space derivation, claim
about src/search.py lines 253-268 and src/accdoa_search.py lines
345-362).  The narrowing pass itself lives in model_analyze.py, which is
not under src/; it is modelled from the spec. -/

/-- A search space, flattened to its addressable dimensions: each
dimension path carries the ordered list of values still allowed. -/
abbrev SearchSpace (V : Type) := List (String × List V)

/-- A removal record: the dimension path and the value removed there. -/
structure Removal (V : Type) where
  dim : String
  value : V
  deriving DecidableEq, Repr

/-- Modelled from the spec: remove(dimension_path, value) of the absent
model_analyze/Search-Space Model (spec 4.1) returns a new search space
with that single value deleted from the referenced dimension's domain. -/
def removeValue {V : Type} [DecidableEq V] (space : SearchSpace V) (d : String) (v : V) :
    SearchSpace V :=
  space.map (fun p => if p.1 = d then (p.1, p.2.erase v) else p)

/-- Application of a removal log to a search-space snapshot, in order. -/
def applyRemovals {V : Type} [DecidableEq V] (space : SearchSpace V)
    (rs : List (Removal V)) : SearchSpace V :=
  rs.foldl (fun s r => removeValue s r.dim r.value) space

/-- Modelled from the spec: the narrowing loop of the absent
model_analyze.narrow_search_space (spec 4.5): while a removable row
remains, remove the single worst qualifying value from the space and
append the corresponding removal record to the round's removal log.  The
selection policy is abstracted into pick; fuel bounds the passes. -/
def narrowLoop {V : Type} [DecidableEq V] (pick : SearchSpace V → Option (Removal V)) :
    Nat → SearchSpace V → List (Removal V) → SearchSpace V × List (Removal V)
  | 0, s, acc => (s, acc)
  | fuel + 1, s, acc =>
    match pick s with
    | none => (s, acc)
    | some r => narrowLoop pick fuel (removeValue s r.dim r.value) (acc ++ [r])

/-- The search-space branch of src/search.py main, lines 253-268: when
search_space_{index}.json exists it is loaded; when it is absent the
controller constructs the FULL initial space (the specific_search_space
built from the module-level search_space_2d/search_space_1d constants,
here the initialSpace argument) and dumps it — at every round, not only
round 1, and without consulting the previous snapshot or the removal
logs. -/
def searchSpaceForRound {V : Type} (onDisk : Option (SearchSpace V))
    (initialSpace : SearchSpace V) : SearchSpace V :=
  match onDisk with
  | some s => s
  | none => initialSpace

/-- The search-space branch of src/accdoa_search.py main, lines 345-362:
when search_space_{index}.json exists it is loaded; when absent at index
1 the full initial space is built; when absent at a later index the
controller executes writer.dump(search_space, ...) — search_space here is
whatever the previous round's narrowing left in memory.  In a continuous
run that is the narrowed space (the inMemory argument is some of it); on
a process restart the local variable search_space was never assigned, and
line 362 raises NameError (modelled as inMemory = none). -/
def accdoaSnapshotForRound {V : Type} (onDisk : Option (SearchSpace V)) (index : Nat)
    (inMemory : Option (SearchSpace V)) (initialSpace : SearchSpace V) :
    Except String (SearchSpace V) :=
  match onDisk with
  | some s => Except.ok s
  | none =>
    if index = 1 then Except.ok initialSpace
    else
      match inMemory with
      | some s => Except.ok s
      | none => Except.error "NameError"

/-! Historical-trial exclusion before analysis (src/accdoa_search.py main
lines 410-421 and search_space_filter lines 240-276). -/

/-- A leaf value of a trial config as it comes back from json.load, with
enough structure for Python's type() comparison: ints, floats, strings,
booleans and lists are distinct types. -/
inductive PyLit : Type where
  | int (n : Int)
  | float (q : ℚ)
  | str (s : String)
  | boolean (b : Bool)
  | listv (xs : List Int)
  deriving DecidableEq, Repr

/-- The Python type() tag of a literal, for the filter's type check. -/
def PyLit.tag : PyLit → Nat
  | PyLit.int _ => 0
  | PyLit.float _ => 1
  | PyLit.str _ => 2
  | PyLit.boolean _ => 3
  | PyLit.listv _ => 4

/-- A value stored under a top-level key of a trial config: either a leaf
or a nested stage-argument dict. -/
inductive ConfVal : Type where
  | leaf (v : PyLit)
  | sub (fields : List (String × PyLit))
  deriving DecidableEq, Repr

/-- Lookup in an ordered association list, Python's dict.get. -/
def alistGet {β : Type} (l : List (String × β)) (k : String) : Option β :=
  match l.find? (fun p => p.1 = k) with
  | some p => some p.2
  | none => none

/-- A trial config: the top-level dict of results entry config. -/
abbrev Config := List (String × ConfVal)

/-- The fallback of search_space_filter for a missing depth key
(src/accdoa_search.py lines 256-258): when the addressed key is depth and
absent, retarget to the first key of the stage dict containing depth;
Python raises IndexError when no such key exists. -/
def depthFallback (fields : List (String × PyLit)) : Except String String :=
  match fields.find? (fun p => hasSubstr "depth".data p.1.data) with
  | some p => Except.ok p.1
  | none => Except.error "IndexError"

/-- The fallback of search_space_filter for a missing GRU_units key
(lines 259-266): the stage dict's gru_units key is renamed to GRU_units,
so the subsequent lookup of GRU_units reads the old gru_units entry. -/
def gruFallback (fields : List (String × PyLit)) : List (String × PyLit) :=
  fields.map (fun p => if p.1 = "gru_units" then ("GRU_units", p.2) else p)

/-- Embedding of the predicate closure returned by search_space_filter
(src/accdoa_search.py lines 240-276) applied to one results entry.
target is the already-dot-split dimension path and unit the parsed removed
value (json.loads of the recorded text, line 243).  A one-component path
addresses a top-level leaf; a two-component path addresses a stage
hyperparameter, with the depth and GRU_units fallbacks of the source; a
missing key raises ValueError, a type() mismatch between the found value
and unit raises TypeError, and otherwise the entry is kept exactly when
the value differs from unit (line 275). -/
def searchSpaceFilterPred (target : List String) (unit : PyLit) (config : Config) :
    Except String Bool :=
  match target with
  | [t0] =>
    match alistGet config t0 with
    | none => Except.error "ValueError"
    | some (ConfVal.sub _) => Except.error "TypeError"
    | some (ConfVal.leaf v) =>
      if v.tag = unit.tag then Except.ok (decide (v ≠ unit)) else Except.error "TypeError"
  | [t0, t1] =>
    match alistGet config t0 with
    | none => Except.error "ValueError"
    | some (ConfVal.leaf _) => Except.error "AttributeError"
    | some (ConfVal.sub fields) => do
      let keyed ←
        if t1 = "depth" ∧ alistGet fields t1 = none then do
          let k ← depthFallback fields
          pure (fields, k)
        else if t1 = "GRU_units" ∧ alistGet fields t1 = none then
          pure (gruFallback fields, t1)
        else
          pure (fields, t1)
      match alistGet keyed.1 keyed.2 with
      | none => Except.error "ValueError"
      | some v =>
        if v.tag = unit.tag then Except.ok (decide (v ≠ unit)) else Except.error "TypeError"
  | _ => Except.error "NameError"

/-- A removal-log entry as read back by the main loop (lines 418-420):
the versus text whose part before the colon is the dotted dimension path,
and the removed value parsed from the result text. -/
structure RemovedEntry where
  versus : String
  unitVal : PyLit
  deriving Repr

/-- The dimension path extraction of line 419:
remove.versus.split(colon)[0] split on dots. -/
def RemovedEntry.target (r : RemovedEntry) : List String :=
  (splitChars '.' (((splitChars ':' r.versus.data).headD []))).map (fun l => String.mk l)

/-- Python's list(filter(p, xs)) for a predicate that can raise: entries
are tested left to right and the first exception propagates. -/
def filterE {α : Type} (p : α → Except String Bool) : List α → Except String (List α)
  | [] => Except.ok []
  | x :: xs => do
    let b ← p x
    let rest ← filterE p xs
    pure (if b then x :: rest else rest)

/-- The exclusion loop of src/accdoa_search.py lines 418-421: every
accumulated removal entry filters the historical results in turn. -/
def excludeRemoved (removed : List RemovedEntry) (results : List Config) :
    Except String (List Config) :=
  removed.foldlM
    (fun acc r => filterE (searchSpaceFilterPred r.target r.unitVal) acc) results

/-- Direct resolution of a dimension path in a trial config, with no
fallback: the value the claim speaks about. -/
def valAt (config : Config) (target : List String) : Option PyLit :=
  match target with
  | [t0] =>
    match alistGet config t0 with
    | some (ConfVal.leaf v) => some v
    | _ => none
  | [t0, t1] =>
    match alistGet config t0 with
    | some (ConfVal.sub fields) => alistGet fields t1
    | _ => none
  | _ => none

/-- Whether a trial config survives every removal filter: its value at
each removed dimension differs from the removed value. -/
def survives (removed : List RemovedEntry) (config : Config) : Bool :=
  removed.all (fun r => decide (valAt config r.target ≠ some r.unitVal))

/-! Canonicalization postprocess_fn (src/nas_seldnet.py, lines 231-257). -/

/-- The hyperparameter record of a mother_stage block, as sampled:
filter counts, kernel sizes, the connect vectors (Python lists of 0/1 of
lengths 1, 2 and 3) and the strides pair. -/
structure MotherArgs where
  filters0 : Int
  filters1 : Int
  filters2 : Int
  kernel_size0 : Int
  kernel_size1 : Int
  kernel_size2 : Int
  connect0 : List Int
  connect1 : List Int
  connect2 : List Int
  strides : List Int
  deriving DecidableEq, Repr

/-- The body of postprocess_fn for one mother_stage block
(src/nas_seldnet.py lines 239-256), with the four statements applied in
source order: the connect2 fix-up when filters2 is 0, then the
neutralizations for filters0 = 0, filters1 = 0 and filters2 = 0.
Python's a[i] = x on a list is List.set (the source only ever writes
in-range indices of the sampled connect vectors). -/
def postprocessMother (a : MotherArgs) : MotherArgs :=
  let a1 :=
    if a.filters2 = 0 then
      if a.filters1 ≠ 0 then { a with connect2 := a.connect2.set 2 1 }
      else if a.filters0 ≠ 0 then { a with connect2 := a.connect2.set 1 1 }
      else a
    else a
  let a2 :=
    if a1.filters0 = 0 then
      { a1 with kernel_size0 := 0, connect1 := a1.connect1.set 1 0,
                connect2 := a1.connect2.set 1 0 }
    else a1
  let a3 :=
    if a2.filters1 = 0 then
      { a2 with kernel_size1 := 0, connect2 := a2.connect2.set 2 0, strides := [1, 1] }
    else a2
  if a3.filters2 = 0 then { a3 with kernel_size2 := 0 } else a3

/-- The stage assigned to a slot of a model config: a mother_stage with
its arguments, or any other stage type (left untouched by
postprocess_fn). -/
inductive StageArgs : Type where
  | mother (a : MotherArgs)
  | other (stageType : String)
  deriving DecidableEq, Repr

/-- Embedding of postprocess_fn (src/nas_seldnet.py lines 231-257): after
a deepcopy of the input, every key starting with BLOCK whose stage type
is mother_stage has its argument dict canonicalized; other entries (SED,
DOA, n_classes, non-mother blocks) are untouched.  Iteration order over
the sorted block keys is irrelevant to the per-entry rewrite. -/
def postprocess_fn (config : List (String × StageArgs)) : List (String × StageArgs) :=
  config.map (fun kv =>
    if strHasPrefix "BLOCK" kv.1 then
      match kv.2 with
      | StageArgs.mother a => (kv.1, StageArgs.mother (postprocessMother a))
      | s => (kv.1, s)
    else kv)

/-- The shape every sampled mother_stage argument dict has (connect
vectors of lengths 1, 2, 3, cf. the search spaces of src/search.py lines
55-58): postprocess_fn's index assignments are in range exactly on these. -/
def motherWellFormed (a : MotherArgs) : Bool :=
  a.connect1.length = 2 && a.connect2.length = 3

/-- Well-formedness of a whole config. -/
def configWellFormed (config : List (String × StageArgs)) : Bool :=
  config.all (fun kv =>
    match kv.2 with
    | StageArgs.mother a => motherWellFormed a
    | StageArgs.other _ => true)

/-! Config deduplication (src/config_manager.py: find_duplicate_config,
lines 30-52, called from get_config lines 144-153). -/

/-- A saved candidate config as find_duplicate_config sees it after
load_config, manage_mode and manage_gpu: its file stem (the version
identifier it would return) and its field dict. -/
structure SavedConfig where
  stem : String
  fields : List (String × PyLit)
  deriving Repr

/-- The inner key loop of find_duplicate_config (lines 44-49): iterate
the keys of newconfig, skip name, compare against the candidate; the
first differing key stops the scan with a mismatch, a key missing from
the candidate raises KeyError. -/
def contentMatches (newcfg cand : List (String × PyLit)) : Except String Bool :=
  match newcfg with
  | [] => Except.ok true
  | (k, v) :: rest =>
    if k = "name" then contentMatches rest cand
    else
      match alistGet cand k with
      | none => Except.error "KeyError"
      | some w => if v = w then contentMatches rest cand else Except.ok false

/-- The candidate loop of find_duplicate_config (lines 35-52), carrying
the find flag exactly as the source does: find is initialized to True
once, BEFORE the loop; a candidate of different key count is skipped with
find unchanged; otherwise find becomes find and-ed with the content
comparison, and the candidate's stem is returned when the resulting flag
is true.  Falling off the loop returns False (here none). -/
def fdcLoop (newcfg : List (String × PyLit)) :
    List SavedConfig → Bool → Except String (Option String)
  | [], _ => Except.ok none
  | c :: rest, find =>
    if c.fields.length ≠ newcfg.length then fdcLoop newcfg rest find
    else do
      let m ← contentMatches newcfg c.fields
      let find2 := find && m
      if find2 then pure (some c.stem) else fdcLoop newcfg rest find2

/-- find_duplicate_config (src/config_manager.py lines 30-52). -/
def find_duplicate_config (newcfg : List (String × PyLit)) (configs : List SavedConfig) :
    Except String (Option String) :=
  fdcLoop newcfg configs true

/-- A fresh config for the deduplication scenario: name differs, content
keys a and b. -/
def dupNew : List (String × PyLit) :=
  [("name", PyLit.str "x_v_2"), ("a", PyLit.int 1), ("b", PyLit.int 2)]

/-- First saved candidate: same key count as dupNew but content differing
at key b. -/
def dupCand1 : SavedConfig :=
  { stem := "x_v_0",
    fields := [("name", PyLit.str "x_v_0"), ("a", PyLit.int 1), ("b", PyLit.int 3)] }

/-- Second saved candidate: an exact-content duplicate of dupNew (all
fields equal except the ignored name). -/
def dupCand2 : SavedConfig :=
  { stem := "x_v_1",
    fields := [("name", PyLit.str "x_v_1"), ("a", PyLit.int 1), ("b", PyLit.int 2)] }

/-! Theorems. -/

/-- When every read attempt up to the budget fails to decode, the whole
retry loop surfaces the decode failure. -/
theorem loadAux_error_of_all {α : Type} (reads : Nat → Except String α) (e : String) :
    ∀ (fuel i : Nat), (∀ j, j ≤ i + fuel → reads j = Except.error e) →
      Writer.loadAux reads i fuel = Except.error e := by
  intro fuel
  induction fuel with
  | zero =>
    intro i h
    simp [Writer.loadAux, h i (Nat.le_add_right i 0)]
  | succ f ih =>
    intro i h
    simp only [Writer.loadAux, h i (Nat.le_add_right i (f + 1))]
    exact ih (i + 1) (fun j hj => h j (by omega))

/-- The retry loop only ever looks at the reads inside its budget. -/
theorem loadAux_congr {α : Type} (r1 r2 : Nat → Except String α) :
    ∀ (fuel i : Nat), (∀ j, j ≤ i + fuel → r1 j = r2 j) →
      Writer.loadAux r1 i fuel = Writer.loadAux r2 i fuel := by
  intro fuel
  induction fuel with
  | zero =>
    intro i h
    simp [Writer.loadAux, h i (Nat.le_add_right i 0)]
  | succ f ih =>
    intro i h
    simp only [Writer.loadAux]
    rw [← h i (Nat.le_add_right i (f + 1))]
    cases hr : r1 i with
    | ok v => simp [hr]
    | error e => simp [hr]; exact ih (i + 1) (fun j hj => h j (by omega))

/-- The retry loop returns the first successful decode. -/
theorem loadAux_first_ok {α : Type} (reads : Nat → Except String α) (v : α) (e : String) :
    ∀ (fuel i k : Nat), k ≤ fuel →
      (∀ j, i ≤ j → j < i + k → reads j = Except.error e) →
      reads (i + k) = Except.ok v →
      Writer.loadAux reads i fuel = Except.ok v := by
  intro fuel
  induction fuel with
  | zero =>
    intro i k hk _ hok
    have hk0 : k = 0 := Nat.le_zero.mp hk
    subst hk0
    simpa using hok
  | succ f ih =>
    intro i k hk herr hok
    cases k with
    | zero =>
      simp only [Writer.loadAux]
      rw [show i + 0 = i from rfl] at hok
      simp [hok]
    | succ m =>
      have hi : reads i = Except.error e := herr i (Nat.le_refl i) (by omega)
      simp only [Writer.loadAux, hi]
      exact ih (i + 1) m (by omega) (fun j h1 h2 => herr j (by omega) (by omega))
        (by rw [show i + 1 + m = i + (m + 1) from by omega]; exact hok)

/-- C4: Writer.load either returns the first cleanly decoded document, or,
when every read attempt raises a decode failure, performs exactly its
bounded budget of retries (ten guarded retries after the first attempt,
with a fixed one-second delay between attempts in the source) and then
surfaces the decode failure of the final read to the caller; it consults
no read attempt beyond index 10, hence never retries forever. -/
theorem load_retry_bounded {α : Type} (reads reads2 : Nat → Except String α)
    (e : String) (v : α) (k : Nat) :
    ((∀ j, j ≤ 10 → reads j = Except.error e) → Writer.load reads = Except.error e)
    ∧ ((∀ j, j ≤ 10 → reads j = reads2 j) → Writer.load reads = Writer.load reads2)
    ∧ (k ≤ 10 → (∀ j, j < k → reads j = Except.error e) → reads k = Except.ok v →
        Writer.load reads = Except.ok v) := by
  refine ⟨?_, ?_, ?_⟩
  · intro h
    exact loadAux_error_of_all reads e 10 0 (fun j hj => h j (by omega))
  · intro h
    exact loadAux_congr reads reads2 10 0 (fun j hj => h j (by omega))
  · intro hk herr hok
    exact loadAux_first_ok reads v e 10 0 k hk (fun j h1 h2 => herr j (by omega))
      (by simpa using hok)

/-- Witness for C4: with every read failing, load surfaces the failure. -/
theorem load_retry_bounded_witness :
    Writer.load (fun _ => (Except.error "corrupt" : Except String Nat))
      = Except.error "corrupt" :=
  (load_retry_bounded (fun _ => (Except.error "corrupt" : Except String Nat))
    (fun _ => Except.error "corrupt") "corrupt" 0 0).1 (fun _ _ => rfl)

/-- C6 counterexample: with two result files on disk, get_index returns
1, not the number (2) of round result files present in the directory. -/
theorem get_index_counterexample :
    Writer.get_index ["result_1", "result_2"] = 1
    ∧ ((["result_1", "result_2"] : List String).filter
        (fun f => strHasPrefix "result_" f)).length = 2
    ∧ (1 : Nat) ≠ 2 := by
  refine ⟨by decide, by decide, by decide⟩

/-- C6 amended: get_index returns one less than the number of result
files present whenever any exist (so that after the controller's
pre-round increment the active round index equals the file count,
resuming the latest stored round), and 0 on a fresh start with no result
files. -/
theorem get_index_amended (dirFiles : List String)
    (h : (dirFiles.filter (fun f => strHasPrefix "result_" f)).length ≠ 0) :
    Writer.get_index dirFiles
        = (dirFiles.filter (fun f => strHasPrefix "result_" f)).length - 1
    ∧ Writer.get_index dirFiles + 1
        = (dirFiles.filter (fun f => strHasPrefix "result_" f)).length
    ∧ Writer.get_index [] = 0 := by
  refine ⟨by simp [Writer.get_index, h], ?_, by decide⟩
  have h1 : 1 ≤ (dirFiles.filter (fun f => strHasPrefix "result_" f)).length := by omega
  simp [Writer.get_index, h]
  omega

/-- Witness for the amended C6 at a directory holding two result files. -/
theorem get_index_amended_witness :
    Writer.get_index ["result_1", "result_2"]
      = ((["result_1", "result_2"] : List String).filter
          (fun f => strHasPrefix "result_" f)).length - 1 :=
  (get_index_amended ["result_1", "result_2"] (by decide)).1

/-- C10: constructing a Writer with the new flag deletes every non-hidden
file of the run's result directory (trial results, search-space
snapshots, removal logs — none of which are dotfiles), while the reported
round index was computed by get_index from the directory content BEFORE
the deletion; concretely, three stored result files yield index 2 even
though the store is empty afterwards. -/
theorem init_new_deletes_after_index :
    (∀ dirFiles : List String,
        ((Writer.init dirFiles true).filesAfter.all (fun f => strHasPrefix "." f)) = true
        ∧ (Writer.init dirFiles true).index = Writer.get_index dirFiles)
    ∧ (Writer.init ["result_1", "result_2", "result_3"] true).index = 2
    ∧ (Writer.init ["result_1", "result_2", "result_3"] true).filesAfter = [] := by
  refine ⟨fun dirFiles => ⟨?_, rfl⟩, by decide, by decide⟩
  simp only [Writer.init, Writer.rmStar, List.all_eq_true]
  intro f hf
  exact (List.mem_filter.mp hf).2

/-- Appending one sampled element per loop counter is mapping the sampler
over the counters. -/
theorem foldl_append_sample {α : Type} (sample : Nat → α) :
    ∀ (l : List Nat) (init : List α),
      l.foldl (fun acc number => acc ++ [sample number]) init = init ++ l.map sample := by
  intro l
  induction l with
  | nil => intro init; simp
  | cons x xs ih => intro init; simp [ih]

/-- C1: re-entering the filling state with a round result document of k
recorded trials on disk resumes from count k: the final result list is
the k recorded trials unchanged followed by freshly sampled trials for
loop counters k, k+1, ..., n_samples-1 only; every counter that is
trained in the resumed round is at least k, so no recorded config is
trained again. -/
theorem resume_trains_only_remaining {α : Type} (doc : List α) (nSamples : Nat)
    (sample : Nat → α) :
    fillingRound (resumeResults (some doc)) nSamples sample
        = doc ++ (pyRange doc.length nSamples).map sample
    ∧ (fillingRound (resumeResults (some doc)) nSamples sample).take doc.length = doc
    ∧ ((pyRange doc.length nSamples).all (fun number => decide (doc.length ≤ number)))
        = true := by
  have hmain : fillingRound (resumeResults (some doc)) nSamples sample
      = doc ++ (pyRange doc.length nSamples).map sample := by
    simp [fillingRound, resumeResults, foldl_append_sample]
  refine ⟨hmain, ?_, ?_⟩
  · rw [hmain]
    exact List.take_left doc _
  · simp only [List.all_eq_true, pyRange, decide_eq_true_eq]
    intro number hnumber
    obtain ⟨i, _, hEq⟩ := List.mem_range'.mp hnumber
    omega

/-- C3 counterexample: even with zero removable rows at round start (the
analyzer table is empty however many trials exist, so the filtered table
is empty before any trial of the round), the controller still fills the
round with n_samples trials and only then declares the search complete:
the completion test of src/search.py line 294 runs after the filling loop
of lines 270-287, so a round of trials is trained that the claim says is
not required.  Concretely: fresh round, n_samples = 2, filtered table
empty at round start, yet 2 trials are trained before complete. -/
theorem complete_requires_round_trials_counterexample :
    tableFilter 0 ((fun _ : List Nat => ([] : List TableRow)) (resumeResults none)) = []
    ∧ (runRound (none : Option (List Nat)) 2 (fun _ => 0) (fun _ => []) 0).1.length = 2
    ∧ (runRound (none : Option (List Nat)) 2 (fun _ => 0) (fun _ => []) 0).2
        = RoundOutcome.complete := by
  refine ⟨rfl, by decide, by decide⟩

/-- C3 amended: the controller declares the overall search complete
exactly when the analyzer table of the round, filtered by the threshold
(statistic at most the threshold, identity_block rows excluded), has zero
rows — but this completion test runs only AFTER the round has been filled
to n_samples trials, so the round's trials are still collected first;
when removable rows remain the controller instead proceeds to the
narrowing loop. -/
theorem complete_iff_no_removable_rows {α : Type} (onDisk : Option (List α))
    (nSamples : Nat) (sample : Nat → α) (analyzerF : List α → List TableRow)
    (threshold : ℚ) :
    (runRound onDisk nSamples sample analyzerF threshold).1
        = fillingRound (resumeResults onDisk) nSamples sample
    ∧ ((runRound onDisk nSamples sample analyzerF threshold).2 = RoundOutcome.complete
        ↔ tableFilter threshold
            (analyzerF (fillingRound (resumeResults onDisk) nSamples sample)) = [])
    ∧ ∀ row : TableRow, ∀ table : List TableRow,
        (row ∈ tableFilter threshold table
          ↔ row ∈ table ∧ row.stat ≤ threshold ∧ row.kind ≠ "identity_block") := by
  refine ⟨rfl, ?_, ?_⟩
  · simp only [runRound]
    by_cases h : (tableFilter threshold
        (analyzerF (fillingRound (resumeResults onDisk) nSamples sample))).length = 0
    · simp [h, List.length_eq_zero.mp h]
    · simp only [if_neg h]
      constructor
      · intro hc; exact absurd hc (by simp)
      · intro hc; exact absurd (by simp [hc]) h
  · intro row table
    simp [tableFilter, List.mem_filter]

/-- Applying a removal log extended by one record is applying the log and
then removing the one extra value. -/
theorem applyRemovals_append {V : Type} [DecidableEq V] (s : SearchSpace V)
    (rs : List (Removal V)) (r : Removal V) :
    applyRemovals s (rs ++ [r]) = removeValue (applyRemovals s rs) r.dim r.value := by
  simp [applyRemovals]

/-- Invariant of the narrowing loop: the running space always equals the
round-start snapshot with the accumulated removal log applied. -/
theorem narrowLoop_invariant {V : Type} [DecidableEq V]
    (pick : SearchSpace V → Option (Removal V)) :
    ∀ (fuel : Nat) (s : SearchSpace V) (acc : List (Removal V)) (s0 : SearchSpace V),
      s = applyRemovals s0 acc →
      (narrowLoop pick fuel s acc).1 = applyRemovals s0 (narrowLoop pick fuel s acc).2 := by
  intro fuel
  induction fuel with
  | zero =>
    intro s acc s0 h
    simpa [narrowLoop] using h
  | succ f ih =>
    intro s acc s0 h
    simp only [narrowLoop]
    cases hp : pick s with
    | none => simpa using h
    | some r =>
      simp only []
      exact ih (removeValue s r.dim r.value) (acc ++ [r]) s0
        (by rw [applyRemovals_append, ← h])

/-- C2: evaluation of the two controllers' absent-snapshot branches at
the failing input (restart at round 2 with search_space_2.json absent,
round 1 snapshot kernel_size in {1, 3, 5}, round 1 removal log
removing value 5 at kernel_size).  The space the claim and the spec's
resumability contract demand — the previous snapshot with the logged
removals applied — is kernel_size in {1, 3}; but the accdoa
controller raises NameError (line 362 references the never-assigned
search_space), and the search.py controller uses the full initial space
kernel_size in {1, 3, 5}, which differs from the derived space.
Only within a continuous run (in-memory narrowed space still present)
does the accdoa branch persist the space produced by the spec-modelled
narrowing loop, which does equal the previous snapshot with exactly the
logged removals applied. -/
theorem snapshot_absent_no_derivation :
    accdoaSnapshotForRound (none : Option (SearchSpace Int)) 2 none
        [("kernel_size", [1, 3, 5])] = Except.error "NameError"
    ∧ searchSpaceForRound (none : Option (SearchSpace Int)) [("kernel_size", [1, 3, 5])]
        = [("kernel_size", [1, 3, 5])]
    ∧ applyRemovals ([("kernel_size", [1, 3, 5])] : SearchSpace Int)
        [{ dim := "kernel_size", value := 5 }] = [("kernel_size", [1, 3])]
    ∧ ([("kernel_size", [1, 3, 5])] : SearchSpace Int) ≠ [("kernel_size", [1, 3])]
    ∧ ∀ (pick : SearchSpace Int → Option (Removal Int)) (fuel : Nat)
        (s : SearchSpace Int),
        accdoaSnapshotForRound none 2 (some (narrowLoop pick fuel s []).1)
            [("kernel_size", [1, 3, 5])]
          = Except.ok (applyRemovals s (narrowLoop pick fuel s []).2) := by
  refine ⟨rfl, rfl, by decide, by decide, ?_⟩
  intro pick fuel s
  show Except.ok (narrowLoop pick fuel s []).1
      = Except.ok (applyRemovals s (narrowLoop pick fuel s []).2)
  exact congrArg Except.ok (narrowLoop_invariant pick fuel s [] s rfl)

/-- C5 counterexample: dumping a document whose serialization fails
partway (a dict holding a Python set, which passes dump's isinstance gate
but is not JSON serializable) over a previously persisted document does
NOT leave the previous document unchanged: the file was truncated on open
and is left holding the partial prefix written before the TypeError. -/
theorem dump_not_atomic_counterexample :
    (Writer.dump (some "\x7b\x7d")
        (PyVal.dict (PyDict.cons "a" (PyVal.pyset PyList.nil) PyDict.nil))).2 = false
    ∧ (Writer.dump (some "\x7b\x7d")
        (PyVal.dict (PyDict.cons "a" (PyVal.pyset PyList.nil) PyDict.nil))).1
        = some "\x7b\"a\": "
    ∧ some ("\x7b\"a\": " : String) ≠ some ("\x7b\x7d" : String) := by
  refine ⟨rfl, rfl, by decide⟩

mutual

/-- On set-free content the streamed emission completes and equals the
full serialization. -/
theorem emitted_eq_total : ∀ v : PyVal, setFree v = true → emitted v = (serTotal v, true)
  | PyVal.int _, _ => rfl
  | PyVal.str _, _ => rfl
  | PyVal.boolean b, _ => by cases b <;> rfl
  | PyVal.list xs, h => by
    have hx := emittedList_eq_total xs (by simpa [setFree] using h)
    simp [emitted, serTotal, hx]
  | PyVal.dict kvs, h => by
    have hk := emittedDict_eq_total kvs (by simpa [setFree] using h)
    simp [emitted, serTotal, hk]

/-- emitted_eq_total for array elements. -/
theorem emittedList_eq_total :
    ∀ xs : PyList, setFreeList xs = true → emittedList xs = (serTotalList xs, true)
  | PyList.nil, _ => rfl
  | PyList.cons x PyList.nil, h => by
    have hx := emitted_eq_total x (by simpa [setFreeList, setFree] using h)
    simpa [emittedList, serTotalList] using hx
  | PyList.cons x (PyList.cons y ys), h => by
    have h' : (setFree x && setFreeList (PyList.cons y ys)) = true := h
    rw [Bool.and_eq_true] at h'
    have hx := emitted_eq_total x h'.1
    have hys := emittedList_eq_total (PyList.cons y ys) h'.2
    simp [emittedList, serTotalList, hx, hys]

/-- emitted_eq_total for object members. -/
theorem emittedDict_eq_total :
    ∀ kvs : PyDict, setFreeDict kvs = true → emittedDict kvs = (serTotalDict kvs, true)
  | PyDict.nil, _ => rfl
  | PyDict.cons k v PyDict.nil, h => by
    have hv := emitted_eq_total v (by simpa [setFreeDict, setFree] using h)
    simp [emittedDict, serTotalDict, hv]
  | PyDict.cons k v (PyDict.cons k2 v2 rest), h => by
    have h' : (setFree v && setFreeDict (PyDict.cons k2 v2 rest)) = true := h
    rw [Bool.and_eq_true] at h'
    have hv := emitted_eq_total v h'.1
    have hrest := emittedDict_eq_total (PyDict.cons k2 v2 rest) h'.2
    simp [emittedDict, serTotalDict, hv, hrest]

end

/-- C5 amended: dump persists the document by truncating the target file
and streaming the serialization into it — it is not atomic.  For every
set-free content that passes the isinstance gate (a list, dict or set:
the only containers of the model) and every previous file content, dump
returns normally and the file afterwards holds exactly the serialized
content; content rejected by the gate (a top-level number, string or
boolean) raises TypeError before the file is opened, leaving the previous
document unchanged; but when the gate passes and serialization fails
partway the file is left holding the partial prefix, the previously
persisted document being destroyed rather than preserved (see the
counterexample). -/
theorem dump_writes_exact_serialization (prev : Option String) (c : PyVal) :
    (setFree c = true → Writer.isinstanceGate c = true →
        Writer.dump prev c = (some (serTotal c), true))
    ∧ (Writer.isinstanceGate c = false → Writer.dump prev c = (prev, false)) := by
  constructor
  · intro h hg
    simp [Writer.dump, hg, emitted_eq_total c h]
  · intro hg
    simp [Writer.dump, hg]

/-- Witness for the amended C5: a one-field dict over a nonempty previous
file is fully serialized into the file, and a gate-rejected top-level
number leaves the previous file unchanged. -/
theorem dump_writes_exact_serialization_witness :
    (Writer.dump (some "old") (PyVal.dict (PyDict.cons "a" (PyVal.int 1) PyDict.nil))
        = (some (serTotal (PyVal.dict (PyDict.cons "a" (PyVal.int 1) PyDict.nil))), true))
    ∧ Writer.dump (some "old") (PyVal.int 5) = (some "old", false) :=
  ⟨(dump_writes_exact_serialization (some "old")
      (PyVal.dict (PyDict.cons "a" (PyVal.int 1) PyDict.nil))).1 rfl rfl,
   (dump_writes_exact_serialization (some "old") (PyVal.int 5)).2 rfl⟩

/-- When the dimension path of a removal resolves directly in a config
(no fallback needed) and the Python types agree, the filter predicate
returns normally and keeps the config exactly when its value there
differs from the removed value. -/
theorem searchSpaceFilterPred_resolved (target : List String) (unit : PyLit)
    (config : Config) (v : PyLit)
    (hres : valAt config target = some v) (htag : v.tag = unit.tag) :
    searchSpaceFilterPred target unit config = Except.ok (decide (v ≠ unit)) := by
  match target with
  | [] => simp [valAt] at hres
  | [t0] =>
    cases ha : alistGet config t0 with
    | none => simp [valAt, ha] at hres
    | some cv =>
      cases cv with
      | leaf w =>
        have hw : w = v := by simpa [valAt, ha] using hres
        subst hw
        simp [searchSpaceFilterPred, ha, htag]
      | sub fields => simp [valAt, ha] at hres
  | [t0, t1] =>
    cases ha : alistGet config t0 with
    | none => simp [valAt, ha] at hres
    | some cv =>
      cases cv with
      | leaf w => simp [valAt, ha] at hres
      | sub fields =>
        have hlook : alistGet fields t1 = some v := by simpa [valAt, ha] using hres
        simp [searchSpaceFilterPred, ha, hlook, htag]
  | t0 :: t1 :: t2 :: rest => simp [valAt] at hres

/-- Python's list(filter(p, xs)) with a non-raising predicate is the pure
filter. -/
theorem filterE_ok {α : Type} (p : α → Except String Bool) (q : α → Bool) :
    ∀ xs : List α, (∀ x ∈ xs, p x = Except.ok (q x)) →
      filterE p xs = Except.ok (xs.filter q) := by
  intro xs
  induction xs with
  | nil => intro _; rfl
  | cons x rest ih =>
    intro h
    have hx := h x (by simp)
    have hr := ih (fun y hy => h y (by simp [hy]))
    by_cases hq : q x
    · simp [filterE, hx, hr, List.filter_cons, hq, Bind.bind, Except.bind, pure, Except.pure]
    · simp [filterE, hx, hr, List.filter_cons, hq, Bind.bind, Except.bind, pure, Except.pure]

/-- The exclusion loop keeps exactly the survivors, provided every
removal's dimension path resolves directly in every historical config
with matching Python types. -/
theorem excludeRemoved_filter :
    ∀ (removed : List RemovedEntry) (results : List Config),
      (∀ r ∈ removed, ∀ c ∈ results, ∃ v : PyLit,
          valAt c r.target = some v ∧ v.tag = r.unitVal.tag) →
      excludeRemoved removed results = Except.ok (results.filter (survives removed)) := by
  intro removed
  induction removed with
  | nil =>
    intro results _
    have hs : survives [] = fun _ : Config => true := by
      funext c
      simp [survives]
    simp [excludeRemoved, hs, List.filter_true, pure, Except.pure]
  | cons r rest ih =>
    intro results h
    have hstep : filterE (searchSpaceFilterPred r.target r.unitVal) results
        = Except.ok (results.filter
            (fun c => decide (valAt c r.target ≠ some r.unitVal))) := by
      apply filterE_ok
      intro c hc
      obtain ⟨v, hv, htag⟩ := h r (by simp) c hc
      rw [searchSpaceFilterPred_resolved r.target r.unitVal c v hv htag, hv]
      simp
    have hrest := ih (results.filter (fun c => decide (valAt c r.target ≠ some r.unitVal)))
      (fun r2 hr2 c hc => h r2 (by simp [hr2]) c (List.mem_of_mem_filter hc))
    calc excludeRemoved (r :: rest) results
        = excludeRemoved rest
            (results.filter (fun c => decide (valAt c r.target ≠ some r.unitVal))) := by
          simp [excludeRemoved, hstep, Bind.bind, Except.bind]
      _ = Except.ok ((results.filter (fun c => decide (valAt c r.target ≠ some r.unitVal))).filter
            (survives rest)) := hrest
      _ = Except.ok (results.filter (survives (r :: rest))) := by
          rw [List.filter_filter]
          congr 1
          apply List.filter_congr
          intro c _
          simp [survives, List.all_cons, Bool.and_comm]

/-- C7: before the analyzer aggregates, the exclusion loop of
src/accdoa_search.py lines 418-421 keeps exactly the historical trials
whose config's value at every removed dimension differs from the removed
value: every trial that used a removed (dimension_path, value) pair is
excluded, and only such trials are excluded.  The hypothesis states that
every removal path resolves directly in every trial config with matching
Python types (the regime of well-formed removal logs; otherwise the
source raises). -/
theorem trial_exclusion_exact (removed : List RemovedEntry) (results : List Config)
    (h : ∀ r ∈ removed, ∀ c ∈ results, ∃ v : PyLit,
        valAt c r.target = some v ∧ v.tag = r.unitVal.tag) :
    excludeRemoved removed results = Except.ok (results.filter (survives removed))
    ∧ ∀ c : Config,
        (c ∈ results.filter (survives removed)
          ↔ c ∈ results ∧ ∀ r ∈ removed, valAt c r.target ≠ some r.unitVal) := by
  refine ⟨excludeRemoved_filter removed results h, ?_⟩
  intro c
  simp [List.mem_filter, survives, List.all_eq_true]

/-- Witness for C7: one removal record (dimension BLOCK0_ARGS.filters0,
value 3) filtering two historical trials; the trial that used 3 is
excluded and the trial that used 4 survives. -/
theorem trial_exclusion_exact_witness :
    excludeRemoved
        [{ versus := "BLOCK0_ARGS.filters0:other", unitVal := PyLit.int 3 }]
        [[("BLOCK0_ARGS", ConfVal.sub [("filters0", PyLit.int 3)])],
         [("BLOCK0_ARGS", ConfVal.sub [("filters0", PyLit.int 4)])]]
      = Except.ok
          ([[("BLOCK0_ARGS", ConfVal.sub [("filters0", PyLit.int 3)])],
            [("BLOCK0_ARGS", ConfVal.sub [("filters0", PyLit.int 4)])]].filter
            (survives [{ versus := "BLOCK0_ARGS.filters0:other", unitVal := PyLit.int 3 }])) :=
  (trial_exclusion_exact
    [{ versus := "BLOCK0_ARGS.filters0:other", unitVal := PyLit.int 3 }]
    [[("BLOCK0_ARGS", ConfVal.sub [("filters0", PyLit.int 3)])],
     [("BLOCK0_ARGS", ConfVal.sub [("filters0", PyLit.int 4)])]]
    (by
      intro r hr c hc
      simp only [List.mem_singleton] at hr
      subst hr
      simp only [List.mem_cons, List.mem_singleton, List.not_mem_nil, or_false] at hc
      rcases hc with hc | hc
      · subst hc
        exact ⟨PyLit.int 3, by decide, by decide⟩
      · subst hc
        exact ⟨PyLit.int 4, by decide, by decide⟩)).1

/-- Setting index i, then a different index j, then index i again to the
same value changes nothing more. -/
theorem set_then_other_set {α : Type} (l : List α) (i j : Nat) (a b : α) (h : i ≠ j) :
    ((l.set i a).set j b).set i a = (l.set i a).set j b := by
  rw [List.set_comm _ _ _ h, List.set_set, ← List.set_comm _ _ _ h]

/-- set_then_other_set at indices 1 and 2. -/
theorem set12_stable (l : List Int) (x y : Int) :
    ((l.set 1 x).set 2 y).set 1 x = (l.set 1 x).set 2 y :=
  set_then_other_set l 1 2 x y (by decide)

/-- set_then_other_set at indices 2 and 1. -/
theorem set21_stable (l : List Int) (x y : Int) :
    ((l.set 2 x).set 1 y).set 2 x = (l.set 2 x).set 1 y :=
  set_then_other_set l 2 1 x y (by decide)

/-- The per-block canonicalization is idempotent: the filter counts are
never written, so a second pass takes the same branches and re-assigns
the same constants to the same positions. -/
theorem postprocessMother_idem (a : MotherArgs) :
    postprocessMother (postprocessMother a) = postprocessMother a := by
  by_cases h2 : a.filters2 = 0 <;> by_cases h1 : a.filters1 = 0 <;>
    by_cases h0 : a.filters0 = 0 <;>
      simp [postprocessMother, h0, h1, h2, List.set_set, set12_stable, set21_stable]

/-- C8: the canonicalization is idempotent: applying postprocess_fn twice
equals applying it once, for every model config whose mother_stage
connect vectors have the sampled lengths 2 and 3 (the domain on which the
source's index assignments are defined).  The source also never mutates
its input: it deepcopies the config on entry (src/nas_seldnet.py line
232) and rewrites only the copy, which is what justifies embedding it as
a pure function. -/
theorem postprocess_fn_idempotent (config : List (String × StageArgs))
    (h : configWellFormed config = true) :
    postprocess_fn (postprocess_fn config) = postprocess_fn config := by
  simp only [postprocess_fn, List.map_map]
  apply List.map_congr_left
  intro kv hkv
  by_cases hb : strHasPrefix "BLOCK" kv.1
  · cases hs : kv.2 with
    | mother a => simp [Function.comp, hb, hs, postprocessMother_idem]
    | other t => simp [Function.comp, hb, hs]
  · simp [Function.comp, hb]

/-- Witness for C8 on a config with one mother_stage block (disabled
first and third convolutions), one non-mother block and a non-block
entry. -/
theorem postprocess_fn_idempotent_witness :
    postprocess_fn (postprocess_fn
        [("BLOCK0", StageArgs.mother
            { filters0 := 0, filters1 := 3, filters2 := 0,
              kernel_size0 := 1, kernel_size1 := 3, kernel_size2 := 5,
              connect0 := [1], connect1 := [0, 1], connect2 := [1, 0, 1],
              strides := [1, 2] }),
         ("BLOCK1", StageArgs.other "bidirectional_GRU_stage"),
         ("DOA", StageArgs.other "bidirectional_GRU_stage")])
      = postprocess_fn
        [("BLOCK0", StageArgs.mother
            { filters0 := 0, filters1 := 3, filters2 := 0,
              kernel_size0 := 1, kernel_size1 := 3, kernel_size2 := 5,
              connect0 := [1], connect1 := [0, 1], connect2 := [1, 0, 1],
              strides := [1, 2] }),
         ("BLOCK1", StageArgs.other "bidirectional_GRU_stage"),
         ("DOA", StageArgs.other "bidirectional_GRU_stage")] :=
  postprocess_fn_idempotent
    [("BLOCK0", StageArgs.mother
        { filters0 := 0, filters1 := 3, filters2 := 0,
          kernel_size0 := 1, kernel_size1 := 3, kernel_size2 := 5,
          connect0 := [1], connect1 := [0, 1], connect2 := [1, 0, 1],
          strides := [1, 2] }),
     ("BLOCK1", StageArgs.other "bidirectional_GRU_stage"),
     ("DOA", StageArgs.other "bidirectional_GRU_stage")] (by decide)

/-- C9: the find flag of find_duplicate_config is initialized once,
before the candidate loop, and never reset between candidates: once a
same-key-count candidate with differing content has set it to false, a
later exact-content duplicate (every field equal except the ignored name)
can no longer be returned, so the function returns False and get_config
falls through to manage_version, allocating a fresh version suffix even
though a duplicate exists.  With the duplicate listed first the very same
comparison does return its identifier, pinning the divergence on the
un-reset flag rather than on the content comparison. -/
theorem find_duplicate_flag_never_reset :
    find_duplicate_config dupNew [dupCand1, dupCand2] = Except.ok none
    ∧ find_duplicate_config dupNew [dupCand2] = Except.ok (some "x_v_1")
    ∧ contentMatches dupNew dupCand2.fields = Except.ok true := by
  refine ⟨rfl, rfl, rfl⟩
